import Mathlib

/-!
Verification of the multi-source news scraper pipeline
(`scrape_and_notify.py`): shallow embedding of its state handling,
URL safety check, date parsing, caption formatting and orchestration
loop, with theorems settling the specification's claims.
-/

set_option maxHeartbeats 1000000

namespace Scraper

/-- A canonical article record, as built by the extractors
(`parse_html_source` / `parse_wpjson_source`): source name, headline,
description, canonical link, image URL, raw date text and normalized date
(empty string = Unknown). -/
structure Article where
  source : String
  headline : String
  description : String
  link : String
  image_url : String
  date_text : String
  parsed_date : String
deriving Repr, DecidableEq

/-- The on-disk shape of `sent_articles.json` as far as `load_sent`
distinguishes cases: a legacy bare list of URLs, a scoped payload
`{date: ..., urls: ...}` (with `urlsOk = false` when the `urls` entry is
not a list), or an unreadable / missing file. -/
inductive StoredSent where
  | legacy (urls : List String)
  | scoped (date : String) (urls : List String) (urlsOk : Bool)
  | corrupt
deriving Repr, DecidableEq

/-- `load_sent`: load the set of URLs already sent today.  A missing or
unreadable file yields the empty set; a legacy bare list is taken as-is;
a scoped payload is taken only when its date equals today's date and its
`urls` entry is a list, and yields the empty set otherwise. -/
def load_sent (today : String) : StoredSent → Finset String
  | .corrupt => ∅
  | .legacy urls => urls.toFinset
  | .scoped d urls ok =>
      if d ≠ today then ∅
      else if !ok then ∅
      else urls.toFinset

/-- `save_sent`: the payload persisted after each successful delivery —
today's date together with the sorted list of sent URLs (the atomic
temp-file/rename mechanics are not modelled; only the stored value is). -/
def save_sent (today : String) (urls : Finset String) : StoredSent :=
  .scoped today (urls.sort (· ≤ ·)) true

/-- `load_fetch_failures` / `save_fetch_failures` persist a single counter;
`fetch_url`'s exception handler performs, per fetch outcome, the following
counter update and alerting (returning the persisted counter and the number
of alert messages sent): on success the counter is reset to 0 with no
alert; on failure the counter is incremented, and if it has reached
`FETCH_FAILURE_THRESHOLD` an alert is sent and the counter reset to 0. -/
def FETCH_FAILURE_THRESHOLD : Nat := 3

/-- One fetch outcome (`success = true` when `resp.raise_for_status()` did
not raise) applied to the persisted failure counter `c`; returns
(new persisted counter, alerts sent by this call). -/
def fetchStep (success : Bool) (c : Nat) : Nat × Nat :=
  if success then (0, 0)
  else
    let failures := c + 1
    if failures ≥ FETCH_FAILURE_THRESHOLD then (0, 1) else (failures, 0)

/-- A sequence of fetch outcomes applied in order, starting from persisted
counter `c`; returns the final persisted counter and the total number of
alerts sent. -/
def runFetches : List Bool → Nat → Nat × Nat
  | [], c => (c, 0)
  | outcome :: rest, c =>
      let (c', a) := fetchStep outcome c
      let (cEnd, as) := runFetches rest c'
      (cEnd, a + as)

/-- The per-article filter of `main` (lines 590–595): an article is kept
for delivery when its link is not in the sent set and its parsed date,
when non-empty, equals today's date. -/
def keepArticle (sent : Finset String) (today : String) (a : Article) : Bool :=
  if a.link ∈ sent then false
  else if a.parsed_date ≠ "" && a.parsed_date ≠ today then false
  else true

/-- Python `str.lower` restricted to the character repertoire the scraper
handles (ASCII and Latin-1 letters; `0xC0`–`0xDE` except `×` map down by
`0x20`). -/
def pyLowerChar (c : Char) : Char :=
  if 'A' ≤ c ∧ c ≤ 'Z' then Char.ofNat (c.toNat + 0x20)
  else if 0xC0 ≤ c.toNat ∧ c.toNat ≤ 0xDE ∧ c.toNat ≠ 0xD7 then
    Char.ofNat (c.toNat + 0x20)
  else c

/-- Python `str.lower` on a whole string (Latin-1 repertoire). -/
def pyLower (s : String) : String := String.mk (s.data.map pyLowerChar)

/-- Characters allowed after the first character of a URL scheme
(`urllib.parse`: letters, digits, `+`, `-`, `.`). -/
def schemeChar (c : Char) : Bool :=
  c.isAlphanum || c = '+' || c = '-' || c = '.'

/-- ASCII letter test (first character of a valid scheme). -/
def asciiLetter (c : Char) : Bool :=
  ('A' ≤ c && c ≤ 'Z') || ('a' ≤ c && c ≤ 'z')

/-- The parts of `urllib.parse.urlparse` that `is_safe_url` consults. -/
structure UrlParts where
  scheme : String
  netloc : String
deriving Repr, DecidableEq

/-- Split off the URL scheme as `urllib.parse.urlparse` does: a valid
scheme is a non-empty run of scheme characters starting with an ASCII
letter and terminated by `:`; it is returned lowercased, with the
remainder after the colon.  Otherwise the scheme is empty and the whole
input is the remainder. -/
def splitScheme (l : List Char) : List Char × List Char :=
  let pre := l.takeWhile (· ≠ ':')
  if pre.length < l.length ∧ pre ≠ [] ∧
      asciiLetter (pre.headI) ∧ pre.all schemeChar then
    (pre.map pyLowerChar, l.drop (pre.length + 1))
  else
    ([], l)

/-- `urllib.parse.urlparse` restricted to the fields `is_safe_url` reads:
scheme and netloc.  The netloc is present only after a leading `//` and
runs up to the first `/`, `?` or `#`; a netloc containing `[` without `]`
(or vice versa) raises `ValueError` (`Invalid IPv6 URL`), modelled as
`Except.error`. -/
def urlparse (url : String) : Except Unit UrlParts :=
  let (scheme, rest) := splitScheme url.data
  let netloc :=
    if rest.take 2 = ['/', '/'] then
      (rest.drop 2).takeWhile (fun c => c ≠ '/' && c ≠ '?' && c ≠ '#')
    else []
  if (netloc.contains '[' && !netloc.contains ']') ||
     (netloc.contains ']' && !netloc.contains '[') then
    .error ()
  else
    .ok ⟨String.mk scheme, String.mk netloc⟩

/-- Python `str.endswith`, expressed on the underlying character lists. -/
def endsWithPy (s suffix : String) : Bool :=
  suffix.data.isSuffixOf s.data

/-- The domain-allowlist loop of `is_safe_url` (lines 182–185): the
lowercased netloc must equal an allowed domain or end with `"." + domain`. -/
def domainAllowed (netloc : String) (allowed_domains : List String) : Bool :=
  allowed_domains.any (fun domain =>
    netloc = domain || endsWithPy netloc ("." ++ domain))

/-- `is_safe_url`: validate that a URL is http(s) and from an allowed
domain; any parse error yields `false` rather than an exception. -/
def is_safe_url (url : String) (allowed_domains : List String) : Bool :=
  match urlparse url with
  | .error _ => false
  | .ok parsed =>
      if parsed.scheme ≠ "http" && parsed.scheme ≠ "https" then false
      else domainAllowed (pyLower parsed.netloc) allowed_domains

/-- The image-guard step of `parse_html_source` (lines 329–332): a
non-empty image URL failing `is_safe_url` is replaced by the empty string
(no image), not an error. -/
def imageGuard (image_url : String) (allowed_domains : List String) : String :=
  if image_url ≠ "" ∧ ¬ is_safe_url image_url allowed_domains then ""
  else image_url

/-- Python `str.upper` (first-character titlecase of `str.capitalize`) on
the Latin-1 repertoire: ASCII and `0xE0`–`0xFE` letters except `÷` map up
by `0x20`; `ÿ` maps to `Ÿ` (`0x178`). -/
def pyUpperChar (c : Char) : Char :=
  if 'a' ≤ c ∧ c ≤ 'z' then Char.ofNat (c.toNat - 0x20)
  else if 0xE0 ≤ c.toNat ∧ c.toNat ≤ 0xFE ∧ c.toNat ≠ 0xF7 then
    Char.ofNat (c.toNat - 0x20)
  else if c.toNat = 0xFF then Char.ofNat 0x178
  else c

/-- Python `str.capitalize`: first character uppercased, the rest
lowercased (Latin-1 repertoire). -/
def pyCapitalize (s : String) : String :=
  match s.data with
  | [] => ""
  | c :: rest => String.mk (pyUpperChar c :: rest.map pyLowerChar)

/-- A word character for Python's `\b` in a Unicode `str` pattern,
restricted to the repertoire the scraper meets: ASCII alphanumerics, `_`,
and Latin-1 letters (`0xC0`–`0xFF` except `×` and `÷`). -/
def isWordChar (c : Char) : Bool :=
  c.isAlphanum || c = '_' ||
    (0xC0 ≤ c.toNat && c.toNat ≤ 0xFF && c.toNat ≠ 0xD7 && c.toNat ≠ 0xF7)

/-- The character class `[A-Za-zÀ-ÿ]` of the French date
pattern. -/
def frenchLetter (c : Char) : Bool :=
  ('A' ≤ c && c ≤ 'Z') || ('a' ≤ c && c ≤ 'z') ||
    (0xC0 ≤ c.toNat && c.toNat ≤ 0xFF)

/-- `\s` for the inputs at hand. -/
def isSpaceChar (c : Char) : Bool := c.isWhitespace

/-- Take a non-empty maximal run of characters satisfying `p` (the greedy
`X+` of the date patterns; in both patterns the following element can
never match a character of the class, so maximal munch is faithful). -/
def takeRun (p : Char → Bool) (l : List Char) : Option (List Char × List Char) :=
  match l.takeWhile p with
  | [] => none
  | run => some (run, l.drop run.length)

/-- Match the tail of `\b(\d{1,2})\s+([A-Za-zÀ-ÿ]+)\s+(\d{4})\b`
after the day group, returning (month name, year). -/
def frenchAfterDay (l : List Char) : Option (List Char × List Char) := do
  let (_, r1) ← takeRun isSpaceChar l
  let (mon, r2) ← takeRun frenchLetter r1
  let (_, r3) ← takeRun isSpaceChar r2
  match r3 with
  | y1 :: y2 :: y3 :: y4 :: rest =>
      if y1.isDigit && y2.isDigit && y3.isDigit && y4.isDigit &&
          (match rest with | [] => true | c :: _ => !isWordChar c) then
        some (mon, [y1, y2, y3, y4])
      else none
  | _ => none

/-- Match `(\d{1,2})\s+(month)\s+(\d{4})` at the head of `l` (the day
group is greedy: two digits are tried before one), returning
(day, month, year). -/
def frenchAt (l : List Char) : Option (List Char × List Char × List Char) :=
  match l with
  | d1 :: d2 :: r =>
      if d1.isDigit then
        if d2.isDigit then
          match frenchAfterDay r with
          | some (mon, yr) => some ([d1, d2], mon, yr)
          | none =>
              match frenchAfterDay (d2 :: r) with
              | some (mon, yr) => some ([d1], mon, yr)
              | none => none
        else
          match frenchAfterDay (d2 :: r) with
          | some (mon, yr) => some ([d1], mon, yr)
          | none => none
      else none
  | _ => none

/-- `re.search` for the French date pattern: scan left to right for the
first position with a word boundary before a digit where the pattern
matches (`prev` is the character before the current position). -/
def searchFrench (prev : Option Char) (l : List Char) :
    Option (List Char × List Char × List Char) :=
  match l with
  | [] => none
  | c :: rest =>
      let boundary := match prev with
        | none => true
        | some pc => !isWordChar pc
      match if boundary then frenchAt (c :: rest) else none with
      | some g => some g
      | none => searchFrench (some c) rest

/-- Digits to a natural number (`int(...)` on a digit-only string). -/
def natOfDigits (l : List Char) : Nat :=
  l.foldl (fun acc c => 10 * acc + (c.toNat - 48)) 0

/-- `%02d` formatting of a (≤ 2-digit) number. -/
def pad2 (n : Nat) : String :=
  if n < 10 then "0" ++ toString n else toString n

/-- A month-name table as `source["month_map"]` provides it: association
list from capitalized month name to two-digit month number. -/
def monthLookup (month_map : List (String × String)) (key : String) : String :=
  match month_map.find? (fun kv => kv.1 = key) with
  | some kv => kv.2
  | none => ""

/-- `parse_date_french`: search the text for
`\b(\d{1,2})\s+([A-Za-zÀ-ÿ]+)\s+(\d{4})\b`, look the capitalized
month name up in the month table, and render `f"{year}-{mon_num}-{day:02d}"`;
an unmatched pattern or unknown month yields `""` (Unknown). -/
def parse_date_french (date_text : String) (month_map : List (String × String)) :
    String :=
  match searchFrench none date_text.data with
  | none => ""
  | some (day, mon, year) =>
      let mon_num := monthLookup month_map (pyCapitalize (String.mk mon))
      if mon_num = "" then ""
      else String.mk year ++ "-" ++ mon_num ++ "-" ++ pad2 (natOfDigits day)

/-- Match `(\d{1,2})/(\d{1,2})/(\d{2,4})` at the head of `l`: a greedy
1–2 digit group followed by `/` (two digits tried first), twice, then a
greedy 2–4 digit year. -/
def slashGroup12 (l : List Char) : Option (List Char × List Char) :=
  match l with
  | d1 :: d2 :: '/' :: r =>
      if d1.isDigit && d2.isDigit then some ([d1, d2], r)
      else if d1.isDigit && d2 = '/' then none
      else none
  | d1 :: '/' :: r => if d1.isDigit then some ([d1], r) else none
  | _ => none

/-- Match the whole slash pattern at the head of `l`. -/
def slashAt (l : List Char) : Option (List Char × List Char × List Char) := do
  let (day, r1) ← slashGroup12 l
  let (month, r2) ← slashGroup12 r1
  let yearRun := (r2.takeWhile Char.isDigit).take 4
  if yearRun.length ≥ 2 then some (day, month, yearRun) else none

/-- `re.search` for the slash pattern (no word-boundary anchors): first
position where it matches. -/
def searchSlash : List Char → Option (List Char × List Char × List Char)
  | [] => none
  | c :: rest =>
      match slashAt (c :: rest) with
      | some g => some g
      | none => searchSlash rest

/-- `parse_date_dmy_slash`: search for `(\d{1,2})/(\d{1,2})/(\d{2,4})`,
prefix 2-digit years with `"20"`, render
`f"{year}-{month:02d}-{day:02d}"`; no match yields `""`. -/
def parse_date_dmy_slash (date_text : String) : String :=
  match searchSlash date_text.data with
  | none => ""
  | some (day, month, year) =>
      let yearS := if year.length = 2 then "20" ++ String.mk year
                   else String.mk year
      yearS ++ "-" ++ pad2 (natOfDigits month) ++ "-" ++ pad2 (natOfDigits day)

/-- The source-configuration fields `parse_date` consults. -/
structure SourceDateConfig where
  date_format : String
  month_map : List (String × String)

/-- `parse_date`: dispatch on the source's `date_format` (default
`"french"`); empty date text yields `""`. -/
def parse_date (date_text : String) (source : SourceDateConfig) : String :=
  if date_text = "" then ""
  else if source.date_format = "dmy_slash" then parse_date_dmy_slash date_text
  else parse_date_french date_text source.month_map

/-- Modelled from the spec: the French month-name table (`month_map`) that
the source configuration file `sources.yml` supplies for French-language
sources; the file is not under `src/`, so the canonical twelve-month
table named by the spec's `french_table` is used. -/
def frenchTable : List (String × String) :=
  [("Janvier", "01"), ("Février", "02"), ("Mars", "03"), ("Avril", "04"),
   ("Mai", "05"), ("Juin", "06"), ("Juillet", "07"), ("Août", "08"),
   ("Septembre", "09"), ("Octobre", "10"), ("Novembre", "11"),
   ("Décembre", "12")]

/-- Python `str.replace` for the single-character patterns the code uses:
replace every occurrence of `p` by `rep` (left to right). -/
def replaceChar (p : Char) (rep : List Char) : List Char → List Char
  | [] => []
  | c :: rest =>
      if c = p then rep ++ replaceChar p rep rest
      else c :: replaceChar p rep rest

/-- Python `str.replace` on strings (single-character pattern). -/
def pyReplace (s : String) (p : Char) (rep : String) : String :=
  String.mk (replaceChar p rep.data s.data)

/-- `escape_html`: escape `&`, `<`, `>` (in that order) for Telegram HTML. -/
def escape_html (text : String) : String :=
  pyReplace (pyReplace (pyReplace text '&' "&amp;") '<' "&lt;") '>' "&gt;"

/-- The link escaping of `send_article` (line 475): HTML escaping plus
`"` → `&quot;` for the href attribute. -/
def escapeLinkHref (link : String) : String :=
  pyReplace (pyReplace (pyReplace (pyReplace link '&' "&amp;")
    '<' "&lt;") '>' "&gt;") '"' "&quot;"

/-- Python `str.strip`: drop whitespace from both ends. -/
def pyStrip (s : String) : String :=
  String.mk (((s.data.dropWhile isSpaceChar).reverse.dropWhile
    isSpaceChar).reverse)

/-- Python slice `s[:n]` for `n ≥ 0`. -/
def pyTake (s : String) (n : Nat) : String := String.mk (s.data.take n)

/-- Python `"\n".join`. -/
def joinLines : List String → String
  | [] => ""
  | [s] => s
  | s :: rest => s ++ "\n" ++ joinLines rest

/-- The bolded headline line of the caption. -/
def headlineLine (h : String) : String := "<b>" ++ h ++ "</b>"

/-- The hyperlink line of the caption. -/
def linkLine (l : String) : String :=
  "<a href=\"" ++ l ++ "\">Lire l\x27article complet</a>"

/-- The fixed channel attribution line. -/
def ATTRIBUTION : String := "@MoroccanFinancialNews"

/-- Telegram's photo-caption length cap. -/
def MAX_CAPTION : Nat := 1024

/-- `base_caption` of `send_article` (lines 480–487): the caption scaffold
without a description — headline, blank, link line, blank, attribution. -/
def baseCaption (h l : String) : String :=
  joinLines [headlineLine h, "", linkLine l, "", ATTRIBUTION]

/-- `available_for_desc` (line 488): the room left for the description
(may be negative, hence an integer). -/
def availableForDesc (h l : String) : Int :=
  (MAX_CAPTION : Int) - (baseCaption h l).length - 2

/-- The description finally included (lines 492–493): truncated with a
`"..."` marker when longer than the available room. -/
def descFitted (d : String) (avail : Int) : String :=
  if (d.length : Int) > avail then pyTake d (avail - 3).toNat ++ "..." else d

/-- The caption built by `send_article` (lines 490–501) from the escaped
headline, escaped stripped description and escaped link: the description
is included only when non-empty and more than 20 characters of room
remain. -/
def captionFor (h d l : String) : String :=
  let avail := availableForDesc h l
  joinLines
    ((if d ≠ "" ∧ avail > 20 then [headlineLine h, "", descFitted d avail]
      else [headlineLine h]) ++ ["", linkLine l, "", ATTRIBUTION])

/-- The caption as a function of the raw article fields (lines 472–501):
escape, strip the description, then build. -/
def sendCaption (headline description link : String) : String :=
  captionFor (escape_html headline) (escape_html (pyStrip description))
    (escapeLinkHref link)

/-- The observable outcome of (part of) a run of `main`: the in-memory
sent set, the final state of the `sent_articles.json` file, the ordered
snapshots written to that file, and the links successfully delivered, in
order. -/
structure RunResult where
  sent : Finset String
  stored : StoredSent
  snaps : List StoredSent
  links : List String

/-- The per-source delivery loop of `main` (lines 600–609): attempt
`send_article` for each new article in order; on success, add the link to
the sent set and persist the store immediately; on failure (any
exception, including both photo and text paths failing), leave the state
unchanged and continue with the next article.  `deliver` abstracts
whether the Telegram delivery of an article succeeds. -/
def sendLoop (deliver : Article → Bool) (today : String) :
    List Article → Finset String → StoredSent → RunResult
  | [], sent, stored => ⟨sent, stored, [], []⟩
  | a :: rest, sent, stored =>
      if deliver a then
        let sent' := insert a.link sent
        let stored' := save_sent today sent'
        let r := sendLoop deliver today rest sent' stored'
        ⟨r.sent, r.stored, stored' :: r.snaps, a.link :: r.links⟩
      else
        sendLoop deliver today rest sent stored

/-- The per-source body of `main`'s loop (lines 588–609): filter the
extracted articles (dedup store, then date), then deliver. -/
def processSource (deliver : Article → Bool) (today : String)
    (articles : List Article) (sent : Finset String) (stored : StoredSent) :
    RunResult :=
  sendLoop deliver today (articles.filter (keepArticle sent today)) sent stored

/-- `main`'s loop over the configured sources, each source given by its
extracted article list (the same fetched content yields the same lists). -/
def runSources (deliver : Article → Bool) (today : String) :
    List (List Article) → Finset String → StoredSent → RunResult
  | [], sent, stored => ⟨sent, stored, [], []⟩
  | src :: rest, sent, stored =>
      let r1 := processSource deliver today src sent stored
      let r2 := runSources deliver today rest r1.sent r1.stored
      ⟨r2.sent, r2.stored, r1.snaps ++ r2.snaps, r1.links ++ r2.links⟩

/-- One full run of `main` (lines 556–611): load the sent set from the
persisted store, then process every source in order. -/
def mainRun (deliver : Article → Bool) (today : String)
    (sources : List (List Article)) (stored₀ : StoredSent) : RunResult :=
  runSources deliver today sources (load_sent today stored₀) stored₀

end Scraper

namespace Scraper

/-- C3: loading the dedup store returns the empty set whenever the stored
scope date differs from today's date, regardless of the stored links; and
a legacy bare list is returned exactly, regardless of the date. -/
theorem load_sent_scoping (today d : String) (urls : List String) (ok : Bool)
    (hd : d ≠ today) :
    load_sent today (.scoped d urls ok) = ∅ ∧
    load_sent today (.legacy urls) = urls.toFinset := by
  constructor
  · simp [load_sent, hd]
  · rfl

/-- Witness for `load_sent_scoping` at a concrete stored payload. -/
theorem load_sent_scoping_witness :
    load_sent "2026-02-13" (.scoped "2026-02-12" ["https://a/x"] true) = ∅ ∧
    load_sent "2026-02-13" (.legacy ["https://a/x"]) =
      (["https://a/x"] : List String).toFinset :=
  load_sent_scoping "2026-02-13" "2026-02-12" ["https://a/x"] true (by decide)

/-- C6: the failure counter is incremented on every fetch failure below the
threshold and reset to 0 on every fetch success; a failure that brings the
counter to the threshold of 3 sends exactly one alert and resets the
counter to 0; so three consecutive failures from 0 yield exactly one alert
and counter 0, while two failures followed by a success yield no alert and
counter 0. -/
theorem fetch_failure_threshold
    (c : Nat) (hlow : c + 1 < FETCH_FAILURE_THRESHOLD)
    (c' : Nat) (hhit : c' + 1 ≥ FETCH_FAILURE_THRESHOLD) :
    fetchStep true c = (0, 0) ∧
    fetchStep false c = (c + 1, 0) ∧
    fetchStep false c' = (0, 1) ∧
    runFetches [false, false, false] 0 = (0, 1) ∧
    runFetches [false, false, true] 0 = (0, 0) := by
  refine ⟨rfl, ?_, ?_, by decide, by decide⟩
  · simp [fetchStep, Nat.not_le_of_lt hlow]
  · simp [fetchStep, hhit]

/-- Witness for `fetch_failure_threshold` at counters 1 (below threshold
after increment) and 2 (reaching the threshold). -/
theorem fetch_failure_threshold_witness :
    fetchStep true 1 = (0, 0) ∧
    fetchStep false 1 = (2, 0) ∧
    fetchStep false 2 = (0, 1) ∧
    runFetches [false, false, false] 0 = (0, 1) ∧
    runFetches [false, false, true] 0 = (0, 0) :=
  fetch_failure_threshold 1 (by decide) 2 (by decide)

/-- C7: the per-article filter, in its fixed order, skips an article whose
link is already in the dedup store; otherwise skips it when its normalized
date is known (non-empty) and differs from the run's reference date; and
keeps it otherwise — in particular an article with Unknown (empty)
normalized date and a fresh link passes the filter and proceeds to
delivery.  The filter keeps an article exactly when its link is new and
its date is Unknown or today's. -/
theorem keepArticle_characterization (sent : Finset String) (today : String)
    (a : Article) :
    (keepArticle sent today a = true ↔
      a.link ∉ sent ∧ (a.parsed_date = "" ∨ a.parsed_date = today)) ∧
    (a.link ∈ sent → keepArticle sent today a = false) ∧
    (a.link ∉ sent → a.parsed_date ≠ "" → a.parsed_date ≠ today →
      keepArticle sent today a = false) ∧
    (a.link ∉ sent → a.parsed_date = "" → keepArticle sent today a = true) := by
  refine ⟨?_, ?_, ?_, ?_⟩
  · unfold keepArticle
    by_cases h1 : a.link ∈ sent
    · simp [h1]
    · by_cases h2 : a.parsed_date = ""
      · simp [h1, h2]
      · by_cases h3 : a.parsed_date = today <;> simp [h1, h2, h3]
  · intro h1; simp [keepArticle, h1]
  · intro h1 h2 h3; simp [keepArticle, h1, h2, h3]
  · intro h1 h2; simp [keepArticle, h1, h2]

/-- Witness for `keepArticle_characterization`, exercising all three
branches at concrete articles: link already in the store, known wrong
date, and Unknown date with a fresh link. -/
theorem keepArticle_characterization_witness :
    keepArticle {"https://a/old"} "2026-02-12"
      ⟨"src", "h", "d", "https://a/old", "", "", "2026-02-12"⟩ = false ∧
    keepArticle ∅ "2026-02-12"
      ⟨"src", "h", "d", "https://a/y", "", "", "2026-02-11"⟩ = false ∧
    keepArticle ∅ "2026-02-12"
      ⟨"src", "h", "d", "https://a/x", "", "", ""⟩ = true :=
  ⟨(keepArticle_characterization {"https://a/old"} "2026-02-12"
      ⟨"src", "h", "d", "https://a/old", "", "", "2026-02-12"⟩).2.1
      (Finset.mem_singleton.mpr rfl),
   (keepArticle_characterization ∅ "2026-02-12"
      ⟨"src", "h", "d", "https://a/y", "", "", "2026-02-11"⟩).2.2.1
      (by simp) (by decide) (by decide),
   (keepArticle_characterization ∅ "2026-02-12"
      ⟨"src", "h", "d", "https://a/x", "", "", ""⟩).2.2.2 (by simp) rfl⟩

/-- C4: for a URL parsing with an http(s) scheme, the SSRF guard accepts
exactly when the lowercased host equals an allowed domain or ends with
`"." + domain`; in particular, `evil-example.com` is rejected against
allowlist `["example.com"]` while the proper subdomain `evil.example.com`
is accepted, and any URL failing the check yields no image (empty image
URL), never an error. -/
theorem ssrf_host_allowlist (url : String) (doms : List String)
    (p : UrlParts) (hp : urlparse url = .ok p)
    (hs : p.scheme = "http" ∨ p.scheme = "https") :
    (is_safe_url url doms = true ↔
      ∃ d ∈ doms, pyLower p.netloc = d ∨
        endsWithPy (pyLower p.netloc) ("." ++ d) = true) ∧
    is_safe_url "https://evil-example.com/a.jpg" ["example.com"] = false ∧
    is_safe_url "https://evil.example.com/a.jpg" ["example.com"] = true ∧
    (∀ u ds, is_safe_url u ds = false → imageGuard u ds = "") := by
  refine ⟨?_, by decide, by decide, ?_⟩
  · unfold is_safe_url
    rw [hp]
    rcases hs with h | h <;>
      simp [h, domainAllowed, List.any_eq_true]
  · intro u ds hu
    unfold imageGuard
    by_cases he : u = ""
    · simp [he]
    · simp [he, hu]

/-- Witness for `ssrf_host_allowlist` at `https://evil.example.com/a.jpg`
against allowlist `["example.com"]`. -/
theorem ssrf_host_allowlist_witness :
    (is_safe_url "https://evil.example.com/a.jpg" ["example.com"] = true ↔
      ∃ d ∈ ["example.com"], pyLower "evil.example.com" = d ∨
        endsWithPy (pyLower "evil.example.com") ("." ++ d) = true) ∧
    is_safe_url "https://evil-example.com/a.jpg" ["example.com"] = false ∧
    is_safe_url "https://evil.example.com/a.jpg" ["example.com"] = true ∧
    (∀ u ds, is_safe_url u ds = false → imageGuard u ds = "") :=
  ssrf_host_allowlist "https://evil.example.com/a.jpg" ["example.com"]
    ⟨"https", "evil.example.com"⟩ rfl (Or.inr rfl)

/-- C10: a URL whose scheme is not `http` or `https` is rejected by the
SSRF check regardless of the allowlist (even when its host text appears in
the allowed-domains list), and unparseable input (an invalid IPv6 netloc,
where `urlparse` raises `ValueError`) yields `false` rather than an
exception. -/
theorem ssrf_scheme_guard (url : String) (doms : List String)
    (p : UrlParts) (hp : urlparse url = .ok p)
    (h1 : p.scheme ≠ "http") (h2 : p.scheme ≠ "https") :
    is_safe_url url doms = false ∧
    (∀ ds, is_safe_url "http://[::1/x" ds = false) ∧
    is_safe_url "file://example.com/etc/passwd" ["example.com"] = false ∧
    is_safe_url "ftp://example.com/a.jpg" ["example.com"] = false ∧
    is_safe_url "javascript:alert(1)" ["example.com", "alert(1)"] = false := by
  refine ⟨?_, ?_, by decide, by decide, by decide⟩
  · unfold is_safe_url
    rw [hp]
    simp [h1, h2]
  · intro ds
    have herr : urlparse "http://[::1/x" = .error () := rfl
    unfold is_safe_url
    rw [herr]

/-- Witness for `ssrf_scheme_guard` at `ftp://example.com/a.jpg` with the
host text itself in the allowlist. -/
theorem ssrf_scheme_guard_witness :
    is_safe_url "ftp://example.com/a.jpg" ["example.com"] = false ∧
    (∀ ds, is_safe_url "http://[::1/x" ds = false) ∧
    is_safe_url "file://example.com/etc/passwd" ["example.com"] = false ∧
    is_safe_url "ftp://example.com/a.jpg" ["example.com"] = false ∧
    is_safe_url "javascript:alert(1)" ["example.com", "alert(1)"] = false :=
  ssrf_scheme_guard "ftp://example.com/a.jpg" ["example.com"]
    ⟨"ftp", "example.com"⟩ rfl (by decide) (by decide)

/-- C8: the date normalizer's three specified examples: a French date with
the French month table, a slash date with 2-digit year assumed 2000s, and
a non-date yielding Unknown (the empty string) rather than an error. -/
theorem date_normalizer_examples :
    parse_date "24 Janvier 2026" ⟨"french", frenchTable⟩ = "2026-01-24" ∧
    parse_date "05/03/25" ⟨"dmy_slash", []⟩ = "2025-03-05" ∧
    parse_date "not a date" ⟨"french", frenchTable⟩ = "" := by
  refine ⟨by decide, by decide, by decide⟩

/-- C9 counterexample: "Fevrier" matches the table key "Février" up to
accents, yet parsing fails (yields Unknown) instead of the canonical
spelling's date: the lookup does not normalize accented characters. -/
theorem month_accent_counterexample :
    parse_date_french "24 Fevrier 2026" frenchTable ≠
      parse_date_french "24 Février 2026" frenchTable ∧
    parse_date_french "24 Fevrier 2026" frenchTable = "" ∧
    parse_date_french "24 Février 2026" frenchTable = "2026-02-24" := by
  refine ⟨by decide, by decide, by decide⟩

/-- C9 (amended): month-name lookup is case-insensitive — for every table
entry, the all-uppercase, all-lowercase and canonical spellings all parse
to the same calendar date, because the name is capitalized before lookup —
but accented characters are not normalized: a spelling differing from the
key only in accents (e.g. "Fevrier" for "Février") yields Unknown. -/
theorem month_lookup_capitalize
    (kv : String × String) (hkv : kv ∈ frenchTable) :
    (parse_date_french ("24 " ++ String.mk (kv.1.data.map pyUpperChar) ++ " 2026")
        frenchTable = "2026-" ++ kv.2 ++ "-24" ∧
     parse_date_french ("24 " ++ String.mk (kv.1.data.map pyLowerChar) ++ " 2026")
        frenchTable = "2026-" ++ kv.2 ++ "-24" ∧
     parse_date_french ("24 " ++ kv.1 ++ " 2026") frenchTable
        = "2026-" ++ kv.2 ++ "-24") ∧
    parse_date_french "24 Fevrier 2026" frenchTable = "" := by
  refine ⟨?_, by decide⟩
  revert hkv
  have : ∀ p ∈ frenchTable,
      (parse_date_french ("24 " ++ String.mk (p.1.data.map pyUpperChar) ++ " 2026")
          frenchTable = "2026-" ++ p.2 ++ "-24" ∧
       parse_date_french ("24 " ++ String.mk (p.1.data.map pyLowerChar) ++ " 2026")
          frenchTable = "2026-" ++ p.2 ++ "-24" ∧
       parse_date_french ("24 " ++ p.1 ++ " 2026") frenchTable
          = "2026-" ++ p.2 ++ "-24") := by decide
  exact this kv

lemma joinLines_len5 (a b c d e : String) :
    (joinLines [a, b, c, d, e]).length =
      a.length + b.length + c.length + d.length + e.length + 4 := by
  have h1 : ("\n" : String).length = 1 := rfl
  simp only [joinLines, String.length_append, h1]
  omega

lemma joinLines_len7 (a b c d e f g : String) :
    (joinLines [a, b, c, d, e, f, g]).length =
      a.length + b.length + c.length + d.length + e.length + f.length +
        g.length + 6 := by
  have h1 : ("\n" : String).length = 1 := rfl
  simp only [joinLines, String.length_append, h1]
  omega

lemma headlineLine_len (h : String) : (headlineLine h).length = h.length + 7 := by
  simp only [headlineLine, String.length_append]
  have h1 : ("<b>" : String).length = 3 := rfl
  have h2 : ("</b>" : String).length = 4 := rfl
  omega

lemma linkLine_len (l : String) : (linkLine l).length = l.length + 37 := by
  simp only [linkLine, String.length_append]
  have h1 : ("<a href=\"" : String).length = 9 := rfl
  have h2 : ("\">Lire l\x27article complet</a>" : String).length = 28 := rfl
  omega

lemma baseCaption_len (h l : String) :
    (baseCaption h l).length = h.length + l.length + 70 := by
  have ha : (ATTRIBUTION : String).length = 22 := rfl
  have he : ("" : String).length = 0 := rfl
  rw [baseCaption, joinLines_len5, headlineLine_len, linkLine_len, ha, he]
  omega

lemma captionFor_omit (h d l : String)
    (hcase : d = "" ∨ availableForDesc h l ≤ 20) :
    captionFor h d l = baseCaption h l := by
  have hfalse : ¬ (d ≠ "" ∧ availableForDesc h l > 20) := by
    rcases hcase with hc | hc
    · exact fun hh => hh.1 hc
    · exact fun hh => absurd hh.2 (not_lt.mpr hc)
  simp only [captionFor, baseCaption, if_neg hfalse, List.cons_append,
    List.nil_append]

lemma captionFor_incl (h d l : String) (hd : d ≠ "")
    (ha : availableForDesc h l > 20) :
    captionFor h d l =
      joinLines [headlineLine h, "", descFitted d (availableForDesc h l), "",
        linkLine l, "", ATTRIBUTION] := by
  simp only [captionFor, if_pos (And.intro hd ha), List.cons_append,
    List.nil_append]

lemma pyTake_len (d : String) (n : Nat) :
    (pyTake d n).length = min n d.length := by
  have h1 : (pyTake d n).length = (d.data.take n).length := rfl
  rw [h1, List.length_take]
  rfl

lemma replaceChar_of_ne (p : Char) (rep : List Char) (l : List Char)
    (h : ∀ c ∈ l, c ≠ p) : replaceChar p rep l = l := by
  induction l with
  | nil => rfl
  | cons c rest ih =>
      rw [replaceChar, if_neg (h c (List.mem_cons_self c rest)),
        ih (fun c hc => h c (List.mem_cons_of_mem _ hc))]

lemma escape_html_replicate (n : Nat) :
    escape_html (String.mk (List.replicate n 'a')) =
      String.mk (List.replicate n 'a') := by
  have key : ∀ (ch : Char) (rep : List Char), ch ≠ 'a' →
      replaceChar ch rep (List.replicate n 'a') = List.replicate n 'a' := by
    intro ch rep hne
    exact replaceChar_of_ne ch rep _
      (fun c hc => by rw [List.eq_of_mem_replicate hc]; exact fun he => hne he.symm)
  simp only [escape_html, pyReplace]
  rw [key '&' _ (by decide), key '<' _ (by decide), key '>' _ (by decide)]

/-- C5 counterexample: the claim's universal 1024-character bound fails —
for a 960-character headline (and empty description), the caption is the
scaffold alone and exceeds 1024 characters, because truncation only ever
applies to the description field. -/
theorem caption_overflow_counterexample :
    ¬ ((sendCaption (String.mk (List.replicate 960 'a')) "" "u").length ≤
        MAX_CAPTION) := by
  have hstrip : escape_html (pyStrip "") = "" := rfl
  have hlink : escapeLinkHref "u" = "u" := rfl
  have hsend : sendCaption (String.mk (List.replicate 960 'a')) "" "u" =
      captionFor (String.mk (List.replicate 960 'a')) "" "u" := by
    rw [sendCaption, hstrip, hlink, escape_html_replicate]
  rw [hsend, captionFor_omit _ _ _ (Or.inl rfl), baseCaption_len]
  have h960 : (String.mk (List.replicate 960 'a')).length = 960 := by
    have : (String.mk (List.replicate 960 'a')).length =
        (List.replicate 960 'a').length := rfl
    rw [this, List.length_replicate]
  have hu : ("u" : String).length = 1 := rfl
  rw [h960, hu]
  decide

/-- C5 (amended): the caption builder of `send_article`, given that the
fixed scaffold (headline, link and attribution lines) is itself within the
1024-character cap, produces a caption of at most 1024 characters; the
scaffold is never cut — when the (escaped, stripped) description is empty
or at most 20 characters of room remain, the caption is exactly the
scaffold (description omitted entirely); when the description fits it is
included whole; and when it does not fit, only the description is
truncated, to the available room minus 3 plus an `"..."` marker, making
the caption exactly 1024 characters. -/
theorem caption_truncation_amended (h d l : String)
    (hbase : (baseCaption h l).length ≤ MAX_CAPTION) :
    (∀ headline description link, sendCaption headline description link =
        captionFor (escape_html headline) (escape_html (pyStrip description))
          (escapeLinkHref link)) ∧
    (captionFor h d l).length ≤ MAX_CAPTION ∧
    (d = "" ∨ availableForDesc h l ≤ 20 →
      captionFor h d l = baseCaption h l) ∧
    (d ≠ "" → 20 < availableForDesc h l →
      (d.length : Int) ≤ availableForDesc h l →
      captionFor h d l =
        joinLines [headlineLine h, "", d, "", linkLine l, "", ATTRIBUTION]) ∧
    (d ≠ "" → 20 < availableForDesc h l →
      availableForDesc h l < (d.length : Int) →
      captionFor h d l =
        joinLines [headlineLine h, "",
          pyTake d ((availableForDesc h l) - 3).toNat ++ "...", "",
          linkLine l, "", ATTRIBUTION] ∧
      (captionFor h d l).length = MAX_CAPTION) := by
  have hav : availableForDesc h l =
      1024 - ((baseCaption h l).length : Int) - 2 := rfl
  have hBlen : (baseCaption h l).length = h.length + l.length + 70 :=
    baseCaption_len h l
  have hMAX : MAX_CAPTION = 1024 := rfl
  have hdots : ("..." : String).length = 3 := rfl
  have hempty : ("" : String).length = 0 := rfl
  have hattr : (ATTRIBUTION : String).length = 22 := rfl
  refine ⟨fun _ _ _ => rfl, ?_, captionFor_omit h d l, ?_, ?_⟩
  · by_cases hc : d ≠ "" ∧ 20 < availableForDesc h l
    · rw [captionFor_incl h d l hc.1 hc.2]
      by_cases hfit : (d.length : Int) ≤ availableForDesc h l
      · have hdf : descFitted d (availableForDesc h l) = d := by
          rw [descFitted, if_neg (not_lt.mpr hfit)]
        rw [hdf, joinLines_len7, headlineLine_len, linkLine_len, hempty, hattr,
          hMAX]
        rw [hav, hBlen] at hfit
        omega
      · have hgt := lt_of_not_le hfit
        have hdf : descFitted d (availableForDesc h l) =
            pyTake d ((availableForDesc h l) - 3).toNat ++ "..." := by
          rw [descFitted, if_pos hgt]
        rw [hdf, joinLines_len7, headlineLine_len, linkLine_len, hempty, hattr,
          String.length_append, pyTake_len, hdots, hMAX]
        rw [hav, hBlen] at hgt hc ⊢
        rcases hc with ⟨_, hc2⟩
        omega
    · have hcase : d = "" ∨ availableForDesc h l ≤ 20 := by
        by_cases hd : d = ""
        · exact Or.inl hd
        · exact Or.inr (le_of_not_lt fun hgt => hc ⟨hd, hgt⟩)
      rw [captionFor_omit h d l hcase]
      exact hbase
  · intro hd hroom hfit
    rw [captionFor_incl h d l hd hroom, descFitted, if_neg (not_lt.mpr hfit)]
  · intro hd hroom hgt
    constructor
    · rw [captionFor_incl h d l hd hroom, descFitted, if_pos hgt]
    · rw [captionFor_incl h d l hd hroom, descFitted, if_pos hgt,
        joinLines_len7, headlineLine_len, linkLine_len, hempty, hattr,
        String.length_append, pyTake_len, hdots, hMAX]
      rw [hav, hBlen] at hgt hroom
      omega

lemma load_save_sent (today : String) (s : Finset String) :
    load_sent today (save_sent today s) = s := by
  simp [load_sent, save_sent, Finset.sort_toFinset]

lemma sendLoop_links (deliver : Article → Bool) (today : String)
    (arts : List Article) : ∀ (sent : Finset String) (stored : StoredSent),
    (sendLoop deliver today arts sent stored).links =
      (arts.filter deliver).map Article.link := by
  induction arts with
  | nil => intro sent stored; rfl
  | cons a rest ih =>
      intro sent stored
      by_cases hda : deliver a
      · simp [sendLoop, hda, List.filter_cons, ih]
      · simp [sendLoop, hda, List.filter_cons, ih]

lemma sendLoop_sent (deliver : Article → Bool) (today : String)
    (arts : List Article) : ∀ (sent : Finset String) (stored : StoredSent),
    (sendLoop deliver today arts sent stored).sent =
      sent ∪ (sendLoop deliver today arts sent stored).links.toFinset := by
  induction arts with
  | nil => intro sent stored; simp [sendLoop]
  | cons a rest ih =>
      intro sent stored
      by_cases hda : deliver a
      · simp only [sendLoop, hda, if_true, ih, List.toFinset_cons]
        ext x
        simp only [Finset.mem_union, Finset.mem_insert, List.mem_toFinset]
        tauto
      · simp [sendLoop, hda, ih]

lemma sendLoop_snaps (deliver : Article → Bool) (today : String)
    (arts : List Article) : ∀ (sent : Finset String) (stored : StoredSent),
    (sendLoop deliver today arts sent stored).snaps =
      (List.range (sendLoop deliver today arts sent stored).links.length).map
        (fun i => save_sent today
          (sent ∪ ((sendLoop deliver today arts sent stored).links.take
            (i + 1)).toFinset)) := by
  induction arts with
  | nil => intro sent stored; rfl
  | cons a rest ih =>
      intro sent stored
      by_cases hda : deliver a
      · simp only [sendLoop, hda, if_true, List.length_cons]
        rw [List.range_succ_eq_map, List.map_cons, List.map_map, ih]
        congr 1
        · simp only [List.take_succ_cons, List.take_zero, List.toFinset_cons,
            List.toFinset_nil, insert_emptyc_eq]
          congr 1
          ext x
          simp only [Finset.mem_insert, Finset.mem_union, Finset.mem_singleton]
          tauto
        · have hfun : (fun i => save_sent today (insert a.link sent ∪
              ((sendLoop deliver today rest (insert a.link sent)
                (save_sent today (insert a.link sent))).links.take
                  (i + 1)).toFinset)) =
              ((fun i => save_sent today (sent ∪
                ((a.link :: (sendLoop deliver today rest (insert a.link sent)
                  (save_sent today (insert a.link sent))).links).take
                    (i + 1)).toFinset)) ∘ Nat.succ) := by
            funext i
            simp only [Function.comp_apply, List.take_succ_cons,
              List.toFinset_cons]
            congr 1
            ext x
            simp only [Finset.mem_insert, Finset.mem_union, List.mem_toFinset]
            tauto
          rw [hfun]
      · simp only [sendLoop, hda, if_false]
        exact ih sent stored

lemma sendLoop_stored (deliver : Article → Bool) (today : String)
    (arts : List Article) : ∀ (sent : Finset String) (stored : StoredSent),
    ((sendLoop deliver today arts sent stored).links = [] ∧
      (sendLoop deliver today arts sent stored).stored = stored) ∨
    load_sent today (sendLoop deliver today arts sent stored).stored =
      (sendLoop deliver today arts sent stored).sent := by
  induction arts with
  | nil => intro sent stored; exact Or.inl ⟨rfl, rfl⟩
  | cons a rest ih =>
      intro sent stored
      by_cases hda : deliver a
      · simp only [sendLoop, hda, if_true]
        rcases ih (insert a.link sent) (save_sent today (insert a.link sent)) with
          ⟨hl, hs⟩ | hld
        · refine Or.inr ?_
          rw [hs, load_save_sent, sendLoop_sent, hl]
          simp
        · exact Or.inr hld
      · simp only [sendLoop, hda, if_false]
        exact ih sent stored

lemma keepArticle_notin (sent : Finset String) (today : String) (a : Article)
    (hk : keepArticle sent today a = true) : a.link ∉ sent := by
  intro hmem
  simp [keepArticle, hmem] at hk

lemma runSources_sent (deliver : Article → Bool) (today : String)
    (srcs : List (List Article)) : ∀ (sent : Finset String) (stored : StoredSent),
    (runSources deliver today srcs sent stored).sent =
      sent ∪ (runSources deliver today srcs sent stored).links.toFinset := by
  induction srcs with
  | nil => intro sent stored; simp [runSources]
  | cons src rest ih =>
      intro sent stored
      simp only [runSources, ih, processSource, sendLoop_sent,
        List.toFinset_append]
      ext x
      simp only [Finset.mem_union, List.mem_toFinset]
      tauto

lemma runSources_fresh (deliver : Article → Bool) (today : String)
    (srcs : List (List Article)) : ∀ (sent : Finset String) (stored : StoredSent),
    ∀ l ∈ (runSources deliver today srcs sent stored).links, l ∉ sent := by
  induction srcs with
  | nil => intro sent stored l hl; exact absurd hl (by simp [runSources])
  | cons src rest ih =>
      intro sent stored l hl
      simp only [runSources, List.mem_append] at hl
      rcases hl with hl1 | hl2
      · rw [processSource, sendLoop_links] at hl1
        simp only [List.mem_map] at hl1
        rcases hl1 with ⟨a, ha, rfl⟩
        have ha2 : a ∈ src.filter (keepArticle sent today) :=
          List.mem_of_mem_filter ha
        exact keepArticle_notin sent today a (List.of_mem_filter ha2)
      · intro hmem
        have := ih _ _ l hl2
        apply this
        rw [processSource, sendLoop_sent]
        exact Finset.mem_union_left _ hmem

lemma runSources_stored (deliver : Article → Bool) (today : String)
    (srcs : List (List Article)) : ∀ (sent : Finset String) (stored : StoredSent),
    ((runSources deliver today srcs sent stored).links = [] ∧
      (runSources deliver today srcs sent stored).stored = stored) ∨
    load_sent today (runSources deliver today srcs sent stored).stored =
      (runSources deliver today srcs sent stored).sent := by
  induction srcs with
  | nil => intro sent stored; exact Or.inl ⟨rfl, rfl⟩
  | cons src rest ih =>
      intro sent stored
      have h1 : ((processSource deliver today src sent stored).links = [] ∧
          (processSource deliver today src sent stored).stored = stored) ∨
          load_sent today (processSource deliver today src sent stored).stored =
            (processSource deliver today src sent stored).sent :=
        sendLoop_stored deliver today (src.filter (keepArticle sent today))
          sent stored
      simp only [runSources]
      rcases ih (processSource deliver today src sent stored).sent
          (processSource deliver today src sent stored).stored with
        ⟨hl2, hs2⟩ | hld2
      · rcases h1 with ⟨hl1, hs1⟩ | hld1
        · exact Or.inl ⟨by simp [hl1, hl2], by rw [hs2, hs1]⟩
        · refine Or.inr ?_
          have hsent2 := runSources_sent deliver today rest
            (processSource deliver today src sent stored).sent
            (processSource deliver today src sent stored).stored
          rw [hs2, hld1, hsent2, hl2]
          simp
      · exact Or.inr hld2

lemma runSources_nodup (deliver : Article → Bool) (today : String)
    (srcs : List (List Article))
    (hnd : ∀ src ∈ srcs, (src.map Article.link).Nodup) :
    ∀ (sent : Finset String) (stored : StoredSent),
    (runSources deliver today srcs sent stored).links.Nodup := by
  induction srcs with
  | nil => intro sent stored; simp [runSources]
  | cons src rest ih =>
      intro sent stored
      simp only [runSources]
      rw [List.nodup_append]
      refine ⟨?_, ?_, ?_⟩
      · rw [processSource, sendLoop_links]
        have hsub : ((src.filter (keepArticle sent today)).filter deliver).map
            Article.link |>.Sublist (src.map Article.link) :=
          List.Sublist.map Article.link
            ((List.filter_sublist _).trans (List.filter_sublist _))
        exact (hnd src (List.mem_cons_self _ _)).sublist hsub
      · exact ih (fun s hs => hnd s (List.mem_cons_of_mem _ hs)) _ _
      · intro l hl1 hl2
        have hfresh := runSources_fresh deliver today rest _ _ l hl2
        apply hfresh
        rw [processSource, sendLoop_sent]
        refine Finset.mem_union_right _ ?_
        rw [List.mem_toFinset]
        simpa only [processSource] using hl1

/-- C2: per-article delivery handling in `main`'s send loop: the
successfully delivered links are exactly those of the articles whose
delivery succeeds, in order (so a failed delivery skips that article but
the loop continues through the whole list); the final sent set is the
initial one plus exactly the delivered links; the store is persisted
immediately after each success — the i-th persisted snapshot is the saved
payload of the initial set extended by the first i+1 delivered links,
written before any later article is processed; and an article whose
delivery fails (and whose link is not otherwise present or delivered) is
not in the final sent set, so it stays eligible for the next run. -/
theorem delivery_error_isolation (deliver : Article → Bool) (today : String)
    (arts : List Article) (sent : Finset String) (stored : StoredSent) :
    (sendLoop deliver today arts sent stored).links =
      (arts.filter deliver).map Article.link ∧
    (sendLoop deliver today arts sent stored).sent =
      sent ∪ ((arts.filter deliver).map Article.link).toFinset ∧
    (sendLoop deliver today arts sent stored).snaps =
      (List.range ((arts.filter deliver).map Article.link).length).map
        (fun i => save_sent today
          (sent ∪ (((arts.filter deliver).map Article.link).take
            (i + 1)).toFinset)) ∧
    (∀ a, a ∈ arts → deliver a = false → a.link ∉ sent →
      (∀ b ∈ arts, deliver b = true → b.link ≠ a.link) →
      a.link ∉ (sendLoop deliver today arts sent stored).sent) := by
  have hlinks := sendLoop_links deliver today arts sent stored
  have hsent := sendLoop_sent deliver today arts sent stored
  have hsnaps := sendLoop_snaps deliver today arts sent stored
  refine ⟨hlinks, by rw [hsent, hlinks], by rw [hsnaps, hlinks], ?_⟩
  intro a _ _ hnot hnone hmem
  rw [hsent, hlinks] at hmem
  rcases Finset.mem_union.mp hmem with hold | hnew
  · exact hnot hold
  · rw [List.mem_toFinset, List.mem_map] at hnew
    rcases hnew with ⟨b, hb, hbl⟩
    exact hnone b (List.mem_of_mem_filter hb) (List.of_mem_filter hb) hbl

/-- Witness for `delivery_error_isolation`: one failing and one succeeding
article; the failing article's link is absent from the final sent set. -/
theorem delivery_error_isolation_witness :
    (⟨"s", "h1", "d1", "https://s/1", "", "", ""⟩ : Article).link ∉
      (sendLoop (fun x => x.link == "https://s/2") "2026-02-12"
        [⟨"s", "h1", "d1", "https://s/1", "", "", ""⟩,
         ⟨"s", "h2", "d2", "https://s/2", "", "", ""⟩] ∅ .corrupt).sent :=
  (delivery_error_isolation (fun x => x.link == "https://s/2") "2026-02-12"
    [⟨"s", "h1", "d1", "https://s/1", "", "", ""⟩,
     ⟨"s", "h2", "d2", "https://s/2", "", "", ""⟩] ∅ .corrupt).2.2.2
    ⟨"s", "h1", "d1", "https://s/1", "", "", ""⟩
    (List.mem_cons_self _ _) (by decide) (by simp) (by decide)

/-- C1 counterexample: the unconditional at-most-once claim fails.  `main`
filters a source's batch against the sent set once, before sending, and
the send loop never re-checks it; the structured-feed extractor
(`parse_wpjson_source`) has no within-feed link dedup.  So a source whose
extracted list repeats a link delivers it twice within the first run
alone, and the two-run total for that link is 2. -/
theorem pipeline_duplicate_counterexample :
    (mainRun (fun _ => true) "2026-02-12"
      [[⟨"s", "h", "d", "https://s/1", "", "", ""⟩,
        ⟨"s", "h", "d", "https://s/1", "", "", ""⟩]] .corrupt).links.count
      "https://s/1" = 2 ∧
    ¬ ((mainRun (fun _ => true) "2026-02-12"
        [[⟨"s", "h", "d", "https://s/1", "", "", ""⟩,
          ⟨"s", "h", "d", "https://s/1", "", "", ""⟩]] .corrupt).links.count
        "https://s/1" +
      (mainRun (fun _ => true) "2026-02-12"
        [[⟨"s", "h", "d", "https://s/1", "", "", ""⟩,
          ⟨"s", "h", "d", "https://s/1", "", "", ""⟩]]
        (mainRun (fun _ => true) "2026-02-12"
          [[⟨"s", "h", "d", "https://s/1", "", "", ""⟩,
            ⟨"s", "h", "d", "https://s/1", "", "", ""⟩]] .corrupt).stored).links.count
        "https://s/1" ≤ 1) := by
  have h1 : (mainRun (fun _ => true) "2026-02-12"
      [[⟨"s", "h", "d", "https://s/1", "", "", ""⟩,
        ⟨"s", "h", "d", "https://s/1", "", "", ""⟩]] .corrupt).links.count
      "https://s/1" = 2 := by decide
  refine ⟨h1, ?_⟩
  omega

/-- C1 (amended): idempotence across two successive runs over the same
fetched content and the same reference date, provided each source's
extracted article list has pairwise-distinct links (the markup extractor
guarantees this via its per-page seen-set; the structured-feed extractor
does not dedup, which is what the proviso excludes): each link is
delivered at most once in total across both runs; in particular a link
delivered in the first run is present in the persisted sent set the second
run loads, and is therefore skipped (never delivered) by the second run. -/
theorem pipeline_idempotent (deliver₁ deliver₂ : Article → Bool)
    (today : String) (sources : List (List Article)) (stored₀ : StoredSent)
    (hnd : ∀ src ∈ sources, (src.map Article.link).Nodup) (link : String) :
    (mainRun deliver₁ today sources stored₀).links.count link +
      (mainRun deliver₂ today sources
        (mainRun deliver₁ today sources stored₀).stored).links.count link ≤ 1 ∧
    (link ∈ (mainRun deliver₁ today sources stored₀).links →
      link ∈ load_sent today (mainRun deliver₁ today sources stored₀).stored ∧
      link ∉ (mainRun deliver₂ today sources
        (mainRun deliver₁ today sources stored₀).stored).links) := by
  simp only [mainRun]
  have hnd₁ : (runSources deliver₁ today sources (load_sent today stored₀)
      stored₀).links.Nodup :=
    runSources_nodup deliver₁ today sources hnd _ _
  have hnd₂ : (runSources deliver₂ today sources
      (load_sent today (runSources deliver₁ today sources
        (load_sent today stored₀) stored₀).stored)
      (runSources deliver₁ today sources (load_sent today stored₀)
        stored₀).stored).links.Nodup :=
    runSources_nodup deliver₂ today sources hnd _ _
  have hmem : link ∈ (runSources deliver₁ today sources
      (load_sent today stored₀) stored₀).links →
      link ∈ load_sent today (runSources deliver₁ today sources
        (load_sent today stored₀) stored₀).stored := by
    intro h
    rcases runSources_stored deliver₁ today sources (load_sent today stored₀)
        stored₀ with ⟨hl, _⟩ | hld
    · rw [hl] at h
      exact absurd h (List.not_mem_nil link)
    · rw [hld, runSources_sent]
      exact Finset.mem_union_right _ (List.mem_toFinset.mpr h)
  have hnot : link ∈ (runSources deliver₁ today sources
      (load_sent today stored₀) stored₀).links →
      link ∉ (runSources deliver₂ today sources
        (load_sent today (runSources deliver₁ today sources
          (load_sent today stored₀) stored₀).stored)
        (runSources deliver₁ today sources (load_sent today stored₀)
          stored₀).stored).links := by
    intro h1 h2
    exact runSources_fresh deliver₂ today sources _ _ link h2 (hmem h1)
  refine ⟨?_, fun h => ⟨hmem h, hnot h⟩⟩
  by_cases hmem1 : link ∈ (runSources deliver₁ today sources
      (load_sent today stored₀) stored₀).links
  · have c2 := List.count_eq_zero.mpr (hnot hmem1)
    have c1 := List.nodup_iff_count_le_one.mp hnd₁ link
    omega
  · have c1 := List.count_eq_zero.mpr hmem1
    have c2 := List.nodup_iff_count_le_one.mp hnd₂ link
    omega

/-- Witness for `pipeline_idempotent`: a single source with one article,
delivered in the first run and skipped by the second. -/
theorem pipeline_idempotent_witness :
    (mainRun (fun _ => true) "2026-02-12"
        [[⟨"s", "h1", "d1", "https://s/1", "", "", ""⟩]] .corrupt).links.count
        "https://s/1" +
      (mainRun (fun _ => true) "2026-02-12"
        [[⟨"s", "h1", "d1", "https://s/1", "", "", ""⟩]]
        (mainRun (fun _ => true) "2026-02-12"
          [[⟨"s", "h1", "d1", "https://s/1", "", "", ""⟩]]
            .corrupt).stored).links.count "https://s/1" ≤ 1 :=
  (pipeline_idempotent (fun _ => true) (fun _ => true) "2026-02-12"
    [[⟨"s", "h1", "d1", "https://s/1", "", "", ""⟩]] .corrupt
    (by decide) "https://s/1").1

/-- Witness for `caption_truncation_amended` at a short headline and link
with an overlong description (the truncating branch). -/
theorem caption_truncation_amended_witness :
    ((baseCaption "Titre" "https://x.tld/a").length ≤ MAX_CAPTION) ∧
    (captionFor "Titre" (String.mk (List.replicate 1500 'd'))
      "https://x.tld/a").length ≤ MAX_CAPTION := by
  have hb : (baseCaption "Titre" "https://x.tld/a").length ≤ MAX_CAPTION := by
    rw [baseCaption_len]
    decide
  exact ⟨hb, (caption_truncation_amended "Titre"
    (String.mk (List.replicate 1500 'd')) "https://x.tld/a" hb).2.1⟩

/-- Witness for `month_lookup_capitalize` at the table entry for
February. -/
theorem month_lookup_capitalize_witness :
    (parse_date_french
        ("24 " ++ String.mk (("Février" : String).data.map pyUpperChar) ++ " 2026")
        frenchTable = "2026-" ++ "02" ++ "-24" ∧
     parse_date_french
        ("24 " ++ String.mk (("Février" : String).data.map pyLowerChar) ++ " 2026")
        frenchTable = "2026-" ++ "02" ++ "-24" ∧
     parse_date_french ("24 " ++ "Février" ++ " 2026") frenchTable
        = "2026-" ++ "02" ++ "-24") ∧
    parse_date_french "24 Fevrier 2026" frenchTable = "" :=
  month_lookup_capitalize ("Février", "02") (by decide)

end Scraper
